import Mathlib

/-!
Verification of scripts/import_all_phases.py.

The script reads five CSV files, and for each data row with a non-empty
trimmed title builds a gh-issue-creation command with the row's title,
body, the file's milestone and one label option per comma-separated label,
prints the command, and (unless dry-run) executes it, aborting on failure.

The embedding models a CSV row as optional string fields (csv.DictReader
yields None for missing columns, and the script coalesces falsy values
with `or`), Python str.strip as dropping ASCII whitespace from both ends,
str.split on a comma literally, and the run of main as a trace of
observable events (warnings, headers, printed and executed commands)
together with the process exit status.  File contents and the external
command's exit codes are supplied as environment parameters.
-/

namespace OntoView

/-- One parsed CSV data row: each field is None when the column is absent. -/
structure Row where
  title : Option String
  body : Option String
  labels : Option String
deriving DecidableEq

/-- Python str.strip on the whitespace the inputs use: drop whitespace
characters from both ends of the character list. -/
def pyStrip (s : String) : String :=
  String.mk (((s.data.dropWhile Char.isWhitespace).reverse.dropWhile Char.isWhitespace).reverse)

/-- Python str.split on a literal comma, on character lists: every comma
separates, empty pieces are kept (e.g. "".split(",") == [""]). -/
def splitCommaAux : List Char → List Char → List String
  | [], cur => [String.mk cur.reverse]
  | c :: rest, cur =>
    if c = ',' then String.mk cur.reverse :: splitCommaAux rest []
    else splitCommaAux rest (c :: cur)

/-- Python s.split(",") for a string s. -/
def pySplitComma (s : String) : List String :=
  splitCommaAux s.data []

/-- Line 39: title = (row.get("title") or "").strip().
Coalescing with `or` maps both a missing column and an empty string to "". -/
def titleOf (r : Row) : String :=
  pyStrip (r.title.getD "")

/-- Line 40: body = row.get("body") or "".  No trimming is applied. -/
def bodyOf (r : Row) : String :=
  r.body.getD ""

/-- Lines 41 and 44: labels_raw = (row.get("labels") or "").strip();
labels = [l.strip() for l in labels_raw.split(",") if l.strip()]. -/
def labelsOf (r : Row) : List String :=
  ((pySplitComma (pyStrip (r.labels.getD ""))).map pyStrip).filter (fun l => l != "")

/-- Lines 64 and 65: the loop appending ["--label", label] per label. -/
def labelArgs : List String → List String
  | [] => []
  | l :: ls => "--label" :: l :: labelArgs ls

/-- Lines 50 to 65: the constructed gh command for one row. -/
def rowCmd (repo milestone : String) (r : Row) : List String :=
  ["gh", "issue", "create", "--repo", repo, "--title", titleOf r,
   "--body", bodyOf r, "--milestone", milestone] ++ labelArgs (labelsOf r)

/-- Line 9: the REPO constant as committed in the source. -/
def REPO : String := "pcharbon70/onto_view"

/-- Line 22: the placeholder value REPO is compared against. -/
def placeholderRepo : String := "your-user/your-repo"

/-- Lines 12 to 18: the five (csv file, milestone) pairs, in declaration order. -/
def PHASE_FILES : List (String × String) :=
  [("phase-1-issues.csv", "Phase 1 – Ontology Ingestion & Canonical Model"),
   ("phase-2-issues.csv", "Phase 2 – LiveView Textual Documentation UI"),
   ("phase-3-issues.csv", "Phase 3 – Interactive Graph Visualization"),
   ("phase-4-issues.csv", "Phase 4 – UX, Property Docs & Accessibility"),
   ("phase-5-issues.csv", "Phase 5 – Export, CI/CD & Deployment")]

/-- Observable events of a run, in the order the script emits them. -/
inductive Event where
  | fatalConfig
  | skipFile (name : String)
  | header (name milestone : String)
  | warnEmptyTitle
  | printCmd (cmd : List String)
  | execCmd (cmd : List String)
  | done
deriving DecidableEq

/-- The run's environment: the REPO constant, sys.argv, the filesystem
(None when the path is not a file, otherwise the parsed data rows), and
the exit code subprocess.run observes for each executed command. -/
structure Env where
  repo : String
  argv : List String
  files : String → Option (List Row)
  exec : List String → Nat

/-- Line 26: dry_run = "--dry-run" in sys.argv. -/
def dryRunOf (argv : List String) : Bool :=
  argv.contains "--dry-run"

/-- Lines 38 to 70: the row loop for one open file.  Returns the events
emitted and True when the loop ran to completion (False when
subprocess.run(check=True) raised on a non-zero exit, which aborts). -/
def runRows (repo milestone : String) (dryRun : Bool)
    (exec : List String → Nat) : List Row → List Event × Bool
  | [] => ([], true)
  | r :: rs =>
    if titleOf r = "" then
      let rest := runRows repo milestone dryRun exec rs
      (Event.warnEmptyTitle :: rest.1, rest.2)
    else
      let cmd := rowCmd repo milestone r
      if dryRun then
        let rest := runRows repo milestone dryRun exec rs
        (Event.printCmd cmd :: rest.1, rest.2)
      else if exec cmd = 0 then
        let rest := runRows repo milestone dryRun exec rs
        (Event.printCmd cmd :: Event.execCmd cmd :: rest.1, rest.2)
      else
        ([Event.printCmd cmd, Event.execCmd cmd], false)

/-- Lines 28 to 37: the file loop.  A missing file is warned about and
skipped; an aborted row loop aborts the remaining files as well. -/
def runFiles (repo : String) (dryRun : Bool) (files : String → Option (List Row))
    (exec : List String → Nat) : List (String × String) → List Event × Bool
  | [] => ([], true)
  | (name, ms) :: rest =>
    match files name with
    | none =>
      let r := runFiles repo dryRun files exec rest
      (Event.skipFile name :: r.1, r.2)
    | some rows =>
      let rr := runRows repo ms dryRun exec rows
      if rr.2 then
        let r := runFiles repo dryRun files exec rest
        (Event.header name ms :: (rr.1 ++ r.1), r.2)
      else
        (Event.header name ms :: rr.1, false)

/-- Lines 21 to 72: main().  The placeholder check exits with status 1
before any file is touched; an uncaught CalledProcessError terminates the
interpreter with a non-zero status and skips the final Done message. -/
def mainRun (env : Env) : List Event × Nat :=
  if env.repo = placeholderRepo then ([Event.fatalConfig], 1)
  else
    let r := runFiles env.repo (dryRunOf env.argv) env.files env.exec PHASE_FILES
    if r.2 then (r.1 ++ [Event.done], 0) else (r.1, 1)

/-- The commands printed during a run, in emission order. -/
def printedCmds (evs : List Event) : List (List String) :=
  evs.filterMap (fun e => match e with | Event.printCmd c => some c | _ => none)

/-- The commands actually executed during a run, in emission order. -/
def execedCmds (evs : List Event) : List (List String) :=
  evs.filterMap (fun e => match e with | Event.execCmd c => some c | _ => none)

/-- The commands the spec expects for a pair list: per pair in order, if
the file is present, one command per row with a non-empty trimmed title,
in row order. -/
def expectedFor (repo : String) (files : String → Option (List Row)) :
    List (String × String) → List (List String)
  | [] => []
  | (name, ms) :: rest =>
    (match files name with
     | none => []
     | some rows => (rows.filter (fun r => titleOf r != "")).map (rowCmd repo ms))
      ++ expectedFor repo files rest

/-- The full expected command sequence of a run over the five phase files. -/
def expectedCmds (repo : String) (files : String → Option (List Row)) : List (List String) :=
  expectedFor repo files PHASE_FILES

@[simp] lemma printedCmds_nil : printedCmds [] = [] := rfl

@[simp] lemma printedCmds_cons_skip (n : String) (es : List Event) :
    printedCmds (Event.skipFile n :: es) = printedCmds es := rfl

@[simp] lemma printedCmds_cons_header (n m : String) (es : List Event) :
    printedCmds (Event.header n m :: es) = printedCmds es := rfl

@[simp] lemma printedCmds_cons_warn (es : List Event) :
    printedCmds (Event.warnEmptyTitle :: es) = printedCmds es := rfl

@[simp] lemma printedCmds_cons_print (c : List String) (es : List Event) :
    printedCmds (Event.printCmd c :: es) = c :: printedCmds es := rfl

@[simp] lemma printedCmds_cons_exec (c : List String) (es : List Event) :
    printedCmds (Event.execCmd c :: es) = printedCmds es := rfl

@[simp] lemma printedCmds_cons_done (es : List Event) :
    printedCmds (Event.done :: es) = printedCmds es := rfl

@[simp] lemma printedCmds_append (a b : List Event) :
    printedCmds (a ++ b) = printedCmds a ++ printedCmds b :=
  List.filterMap_append a b _

@[simp] lemma execedCmds_nil : execedCmds [] = [] := rfl

@[simp] lemma execedCmds_cons_skip (n : String) (es : List Event) :
    execedCmds (Event.skipFile n :: es) = execedCmds es := rfl

@[simp] lemma execedCmds_cons_header (n m : String) (es : List Event) :
    execedCmds (Event.header n m :: es) = execedCmds es := rfl

@[simp] lemma execedCmds_cons_warn (es : List Event) :
    execedCmds (Event.warnEmptyTitle :: es) = execedCmds es := rfl

@[simp] lemma execedCmds_cons_print (c : List String) (es : List Event) :
    execedCmds (Event.printCmd c :: es) = execedCmds es := rfl

@[simp] lemma execedCmds_cons_exec (c : List String) (es : List Event) :
    execedCmds (Event.execCmd c :: es) = c :: execedCmds es := rfl

@[simp] lemma execedCmds_cons_done (es : List Event) :
    execedCmds (Event.done :: es) = execedCmds es := rfl

@[simp] lemma execedCmds_append (a b : List Event) :
    execedCmds (a ++ b) = execedCmds a ++ execedCmds b :=
  List.filterMap_append a b _

lemma runRows_dry_ok (repo ms : String) (exec : List String → Nat) (rows : List Row) :
    (runRows repo ms true exec rows).2 = true := by
  induction rows with
  | nil => rfl
  | cons r rs ih => by_cases h : titleOf r = "" <;> simp [runRows, h, ih]

lemma runRows_dry_printed (repo ms : String) (exec : List String → Nat) (rows : List Row) :
    printedCmds (runRows repo ms true exec rows).1 =
      (rows.filter (fun r => titleOf r != "")).map (rowCmd repo ms) := by
  induction rows with
  | nil => rfl
  | cons r rs ih =>
    by_cases h : titleOf r = "" <;> simp [runRows, h, List.filter_cons, ih]

lemma runRows_dry_execed (repo ms : String) (exec : List String → Nat) (rows : List Row) :
    execedCmds (runRows repo ms true exec rows).1 = [] := by
  induction rows with
  | nil => rfl
  | cons r rs ih => by_cases h : titleOf r = "" <;> simp [runRows, h, ih]

lemma runRows_zero_ok (repo ms : String) (exec : List String → Nat)
    (hz : ∀ c, exec c = 0) (rows : List Row) :
    (runRows repo ms false exec rows).2 = true := by
  induction rows with
  | nil => rfl
  | cons r rs ih => by_cases h : titleOf r = "" <;> simp [runRows, h, hz, ih]

lemma runRows_zero_printed (repo ms : String) (exec : List String → Nat)
    (hz : ∀ c, exec c = 0) (rows : List Row) :
    printedCmds (runRows repo ms false exec rows).1 =
      (rows.filter (fun r => titleOf r != "")).map (rowCmd repo ms) := by
  induction rows with
  | nil => rfl
  | cons r rs ih =>
    by_cases h : titleOf r = "" <;> simp [runRows, h, hz, List.filter_cons, ih]

lemma runRows_zero_execed (repo ms : String) (exec : List String → Nat)
    (hz : ∀ c, exec c = 0) (rows : List Row) :
    execedCmds (runRows repo ms false exec rows).1 =
      (rows.filter (fun r => titleOf r != "")).map (rowCmd repo ms) := by
  induction rows with
  | nil => rfl
  | cons r rs ih =>
    by_cases h : titleOf r = "" <;> simp [runRows, h, hz, List.filter_cons, ih]

lemma runFiles_dry (repo : String) (files : String → Option (List Row))
    (exec : List String → Nat) (ps : List (String × String)) :
    (runFiles repo true files exec ps).2 = true ∧
    printedCmds (runFiles repo true files exec ps).1 = expectedFor repo files ps ∧
    execedCmds (runFiles repo true files exec ps).1 = [] := by
  induction ps with
  | nil => simp [runFiles, expectedFor]
  | cons p rest ih =>
    obtain ⟨name, ms⟩ := p
    obtain ⟨ihok, ihp, ihe⟩ := ih
    cases hf : files name with
    | none => simp [runFiles, expectedFor, hf, ihok, ihp, ihe]
    | some rows =>
      simp [runFiles, expectedFor, hf, runRows_dry_ok, runRows_dry_printed,
        runRows_dry_execed, ihok, ihp, ihe]

lemma runFiles_zero (repo : String) (files : String → Option (List Row))
    (exec : List String → Nat) (hz : ∀ c, exec c = 0) (ps : List (String × String)) :
    (runFiles repo false files exec ps).2 = true ∧
    printedCmds (runFiles repo false files exec ps).1 = expectedFor repo files ps ∧
    execedCmds (runFiles repo false files exec ps).1 = expectedFor repo files ps := by
  induction ps with
  | nil => simp [runFiles, expectedFor]
  | cons p rest ih =>
    obtain ⟨name, ms⟩ := p
    obtain ⟨ihok, ihp, ihe⟩ := ih
    cases hf : files name with
    | none => simp [runFiles, expectedFor, hf, ihok, ihp, ihe]
    | some rows =>
      simp [runFiles, expectedFor, hf, runRows_zero_ok repo ms exec hz,
        runRows_zero_printed repo ms exec hz, runRows_zero_execed repo ms exec hz,
        ihok, ihp, ihe]

lemma printCmd_mem_runRows (repo ms : String) (d : Bool) (exec : List String → Nat)
    (rows : List Row) (c : List String)
    (hc : Event.printCmd c ∈ (runRows repo ms d exec rows).1) :
    ∃ r ∈ rows, titleOf r ≠ "" ∧ c = rowCmd repo ms r := by
  induction rows with
  | nil => simp [runRows] at hc
  | cons r rs ih =>
    by_cases ht : titleOf r = ""
    · have heq : runRows repo ms d exec (r :: rs) =
          (Event.warnEmptyTitle :: (runRows repo ms d exec rs).1,
           (runRows repo ms d exec rs).2) := by
        simp [runRows, ht]
      rw [heq] at hc
      simp only [List.mem_cons] at hc
      rcases hc with hc | hc
      · exact absurd hc (by simp)
      · obtain ⟨r2, hr2, h3, h4⟩ := ih hc
        exact ⟨r2, List.mem_cons_of_mem r hr2, h3, h4⟩
    · cases d with
      | true =>
        have heq : runRows repo ms true exec (r :: rs) =
            (Event.printCmd (rowCmd repo ms r) :: (runRows repo ms true exec rs).1,
             (runRows repo ms true exec rs).2) := by
          simp [runRows, ht]
        rw [heq] at hc
        simp only [List.mem_cons] at hc
        rcases hc with hc | hc
        · exact ⟨r, List.mem_cons_self r rs, ht, Event.printCmd.inj hc⟩
        · obtain ⟨r2, hr2, h3, h4⟩ := ih hc
          exact ⟨r2, List.mem_cons_of_mem r hr2, h3, h4⟩
      | false =>
        by_cases he : exec (rowCmd repo ms r) = 0
        · have heq : runRows repo ms false exec (r :: rs) =
              (Event.printCmd (rowCmd repo ms r) :: Event.execCmd (rowCmd repo ms r) ::
                (runRows repo ms false exec rs).1, (runRows repo ms false exec rs).2) := by
            simp [runRows, ht, he]
          rw [heq] at hc
          simp only [List.mem_cons] at hc
          rcases hc with hc | hc | hc
          · exact ⟨r, List.mem_cons_self r rs, ht, Event.printCmd.inj hc⟩
          · exact absurd hc (by simp)
          · obtain ⟨r2, hr2, h3, h4⟩ := ih hc
            exact ⟨r2, List.mem_cons_of_mem r hr2, h3, h4⟩
        · have heq : runRows repo ms false exec (r :: rs) =
              ([Event.printCmd (rowCmd repo ms r), Event.execCmd (rowCmd repo ms r)],
               false) := by
            simp [runRows, ht, he]
          rw [heq] at hc
          simp only [List.mem_cons] at hc
          rcases hc with hc | hc | hc
          · exact ⟨r, List.mem_cons_self r rs, ht, Event.printCmd.inj hc⟩
          · exact absurd hc (by simp)
          · simp at hc

lemma execedCmds_map_warn (rows : List Row) :
    execedCmds (rows.map (fun _ => Event.warnEmptyTitle)) = [] := by
  induction rows with
  | nil => rfl
  | cons r rs ih => simpa using ih

lemma execedCmds_replicate_warn (n : Nat) :
    execedCmds (List.replicate n Event.warnEmptyTitle) = [] := by
  induction n with
  | zero => rfl
  | succ n ih => simpa [List.replicate] using ih

lemma runRows_allEmpty (repo ms : String) (d : Bool) (exec : List String → Nat)
    (rows : List Row) :
    (∀ r ∈ rows, titleOf r = "") →
    runRows repo ms d exec rows = (rows.map (fun _ => Event.warnEmptyTitle), true) := by
  induction rows with
  | nil => intro _; rfl
  | cons r rs ih =>
    intro h
    have h1 : titleOf r = "" := h r (List.mem_cons_self r rs)
    simp [runRows, h1, ih (fun r2 hr2 => h r2 (List.mem_cons_of_mem r hr2))]

lemma runFiles_allEmpty (repo : String) (d : Bool) (files : String → Option (List Row))
    (exec : List String → Nat) (ps : List (String × String))
    (h : ∀ name rows, files name = some rows → ∀ r ∈ rows, titleOf r = "") :
    (runFiles repo d files exec ps).2 = true ∧
    execedCmds (runFiles repo d files exec ps).1 = [] := by
  induction ps with
  | nil => simp [runFiles]
  | cons p rest ih =>
    obtain ⟨ihok, ihe⟩ := ih
    obtain ⟨name, ms⟩ := p
    cases hf : files name with
    | none => simp [runFiles, hf, ihok, ihe]
    | some rows =>
      have hr := runRows_allEmpty repo ms d exec rows (h name rows hf)
      simp [runFiles, hf, hr, ihok, ihe, execedCmds_map_warn, execedCmds_replicate_warn]

/-- Claim C1: for every row whose trimmed title is non-empty, the constructed
command contains the trimmed title, the row's body (empty string when the
field is absent) and the current pair's milestone, and it is exactly the
fixed gh invocation followed by one label option per non-empty trimmed
comma-delimited segment of the labels field, in left-to-right segment order. -/
theorem c1_row_command_fields (repo milestone : String) (r : Row)
    (h : titleOf r ≠ "") :
    titleOf r ∈ rowCmd repo milestone r ∧
    bodyOf r ∈ rowCmd repo milestone r ∧
    milestone ∈ rowCmd repo milestone r ∧
    rowCmd repo milestone r =
      ["gh", "issue", "create", "--repo", repo, "--title", titleOf r,
       "--body", bodyOf r, "--milestone", milestone] ++
        labelArgs (((pySplitComma (pyStrip (r.labels.getD ""))).map pyStrip).filter
          (fun l => l != "")) := by
  refine ⟨?_, ?_, ?_, rfl⟩ <;> simp [rowCmd]

theorem c1_witness :
    titleOf ⟨some " T ", some "B", some "x, y"⟩ ∈
      rowCmd "o/r" "m" ⟨some " T ", some "B", some "x, y"⟩ :=
  (c1_row_command_fields "o/r" "m" ⟨some " T ", some "B", some "x, y"⟩ (by decide)).1

/-- Claim C2: with the dry-run flag among the arguments (and the repository
configured), the run executes no external command at all, while the printed
commands are exactly one per non-empty-title row of each present file. -/
theorem c2_dry_run_no_invocations (env : Env) (h1 : env.repo ≠ placeholderRepo)
    (h2 : dryRunOf env.argv = true) :
    execedCmds (mainRun env).1 = [] ∧
    printedCmds (mainRun env).1 = expectedCmds env.repo env.files := by
  obtain ⟨hok, hp, he⟩ := runFiles_dry env.repo env.files env.exec PHASE_FILES
  have hm : mainRun env =
      ((runFiles env.repo true env.files env.exec PHASE_FILES).1 ++ [Event.done], 0) := by
    simp [mainRun, h1, h2, hok]
  rw [hm]
  simp [he, hp, expectedCmds]

theorem c2_witness :
    execedCmds (mainRun ⟨REPO, ["--dry-run"], fun _ => none, fun _ => 1⟩).1 = [] :=
  (c2_dry_run_no_invocations _ (by decide) (by decide)).1

/-- Claim C3: when the REPO constant equals the placeholder, main prints the
fatal message and exits with status 1, its whole trace being that single
event: no file is consulted and no command is constructed or executed. -/
theorem c3_placeholder_aborts (env : Env) (h : env.repo = placeholderRepo) :
    mainRun env = ([Event.fatalConfig], 1) ∧ (mainRun env).2 ≠ 0 := by
  refine ⟨by simp [mainRun, h], by simp [mainRun, h]⟩

theorem c3_witness :
    mainRun ⟨placeholderRepo, [], fun _ => none, fun _ => 0⟩ = ([Event.fatalConfig], 1) :=
  (c3_placeholder_aborts _ rfl).1

/-- Claim C4: a row whose trimmed title is empty produces exactly one warning
event and nothing else, and the loop continues with the remaining rows;
moreover every printed command of any row loop comes from some row with a
non-empty trimmed title, so every constructed command carries one. -/
theorem c4_empty_title_row_skipped (repo ms : String) (d : Bool)
    (exec : List String → Nat) (r : Row) (rs : List Row) (h : titleOf r = "") :
    runRows repo ms d exec (r :: rs) =
      (Event.warnEmptyTitle :: (runRows repo ms d exec rs).1,
       (runRows repo ms d exec rs).2) ∧
    (∀ (rows : List Row) (c : List String),
       Event.printCmd c ∈ (runRows repo ms d exec rows).1 →
       ∃ r2 ∈ rows, titleOf r2 ≠ "" ∧ c = rowCmd repo ms r2) := by
  refine ⟨by simp [runRows, h], ?_⟩
  intro rows c hc
  exact printCmd_mem_runRows repo ms d exec rows c hc

theorem c4_witness :
    runRows "o/r" "m" false (fun _ => 0) [⟨some "   ", none, none⟩] =
      (Event.warnEmptyTitle :: (runRows "o/r" "m" false (fun _ => 0) []).1,
       (runRows "o/r" "m" false (fun _ => 0) []).2) :=
  (c4_empty_title_row_skipped "o/r" "m" false (fun _ => 0)
    ⟨some "   ", none, none⟩ [] (by decide)).1

/-- Claim C5: there are exactly five configured pairs, and a pair whose file
is missing contributes exactly one skip warning and no other event, the run
continuing with the remaining pairs. -/
theorem c5_missing_file_skipped (repo : String) (d : Bool)
    (files : String → Option (List Row)) (exec : List String → Nat)
    (name ms : String) (rest : List (String × String)) (h : files name = none) :
    PHASE_FILES.length = 5 ∧
    runFiles repo d files exec ((name, ms) :: rest) =
      (Event.skipFile name :: (runFiles repo d files exec rest).1,
       (runFiles repo d files exec rest).2) := by
  refine ⟨by decide, by simp [runFiles, h]⟩

theorem c5_witness :
    runFiles "o/r" true (fun _ => none) (fun _ => 0) [("phase-1-issues.csv", "m")] =
      (Event.skipFile "phase-1-issues.csv" ::
        (runFiles "o/r" true (fun _ => none) (fun _ => 0) []).1,
       (runFiles "o/r" true (fun _ => none) (fun _ => 0) []).2) :=
  (c5_missing_file_skipped "o/r" true (fun _ => none) (fun _ => 0)
    "phase-1-issues.csv" "m" [] rfl).2

/-- Claim C6: outside dry-run, a non-zero exit of the external command on a
row stops the row loop at that row (its trace ends with that command, later
rows untouched), an aborted row loop stops the file loop (later pairs
untouched), and main then terminates with exit status 1 and no completion
event. -/
theorem c6_exec_failure_aborts (repo ms : String) (exec : List String → Nat)
    (r : Row) (rs : List Row)
    (h1 : titleOf r ≠ "") (h2 : exec (rowCmd repo ms r) ≠ 0) :
    runRows repo ms false exec (r :: rs) =
      ([Event.printCmd (rowCmd repo ms r), Event.execCmd (rowCmd repo ms r)],
       false) ∧
    (∀ (files : String → Option (List Row)) (name : String)
       (rest : List (String × String)) (rows : List Row),
       files name = some rows → (runRows repo ms false exec rows).2 = false →
       runFiles repo false files exec ((name, ms) :: rest) =
         (Event.header name ms :: (runRows repo ms false exec rows).1, false)) ∧
    (∀ env : Env, env.repo ≠ placeholderRepo → dryRunOf env.argv = false →
       (runFiles env.repo false env.files env.exec PHASE_FILES).2 = false →
       mainRun env = ((runFiles env.repo false env.files env.exec PHASE_FILES).1, 1)) := by
  refine ⟨by simp [runRows, h1, h2], ?_, ?_⟩
  · intro files name rest rows hf hfail
    simp [runFiles, hf, hfail]
  · intro env h1' h2' h3'
    simp [mainRun, h1', h2', h3']

theorem c6_witness :
    runRows "o/r" "m" false (fun _ => 1)
        [⟨some "t", none, none⟩, ⟨some "u", none, none⟩] =
      ([Event.printCmd (rowCmd "o/r" "m" ⟨some "t", none, none⟩),
        Event.execCmd (rowCmd "o/r" "m" ⟨some "t", none, none⟩)], false) :=
  (c6_exec_failure_aborts "o/r" "m" (fun _ => 1) ⟨some "t", none, none⟩
    [⟨some "u", none, none⟩] (by decide) (by decide)).1

/-- Claim C7: the configured pairs are exactly the five phase files in
declaration order, and in a run where every external command succeeds the
executed commands (and the printed ones) are exactly one per
non-empty-title row, in row order within each file and in pair order
across files. -/
theorem c7_processing_order (env : Env) (h1 : env.repo ≠ placeholderRepo)
    (h2 : dryRunOf env.argv = false) (h3 : ∀ c, env.exec c = 0) :
    PHASE_FILES =
      [("phase-1-issues.csv", "Phase 1 – Ontology Ingestion & Canonical Model"),
       ("phase-2-issues.csv", "Phase 2 – LiveView Textual Documentation UI"),
       ("phase-3-issues.csv", "Phase 3 – Interactive Graph Visualization"),
       ("phase-4-issues.csv", "Phase 4 – UX, Property Docs & Accessibility"),
       ("phase-5-issues.csv", "Phase 5 – Export, CI/CD & Deployment")] ∧
    execedCmds (mainRun env).1 = expectedCmds env.repo env.files ∧
    printedCmds (mainRun env).1 = expectedCmds env.repo env.files := by
  obtain ⟨hok, hp, he⟩ := runFiles_zero env.repo env.files env.exec h3 PHASE_FILES
  have hm : mainRun env =
      ((runFiles env.repo false env.files env.exec PHASE_FILES).1 ++ [Event.done], 0) := by
    simp [mainRun, h1, h2, hok]
  refine ⟨rfl, ?_, ?_⟩ <;> rw [hm] <;> simp [he, hp, expectedCmds]

theorem c7_witness :
    execedCmds (mainRun ⟨REPO, [], fun _ => none, fun _ => 0⟩).1 =
      expectedCmds REPO (fun _ => none) :=
  (c7_processing_order _ (by decide) (by decide) (fun _ => rfl)).2.1

/-- Claim C8: the scenario row with title Fix login bug, body Users cannot
log in and labels bug, urgent, in the file mapped to Phase 1, yields the gh
command with exactly that title, body, the Phase 1 milestone, and the labels
bug then urgent. -/
theorem c8_scenario :
    PHASE_FILES[0]? =
      some ("phase-1-issues.csv", "Phase 1 – Ontology Ingestion & Canonical Model") ∧
    rowCmd REPO "Phase 1 – Ontology Ingestion & Canonical Model"
        ⟨some "Fix login bug", some "Users cannot log in", some "bug, urgent"⟩ =
      ["gh", "issue", "create", "--repo", REPO, "--title", "Fix login bug",
       "--body", "Users cannot log in", "--milestone",
       "Phase 1 – Ontology Ingestion & Canonical Model",
       "--label", "bug", "--label", "urgent"] := by
  constructor <;> decide

/-- Claim C9: the body is placed into the command verbatim at the body
option's argument position, with no trimming: an absent field becomes the
empty string, and a present field is passed through unchanged, whitespace
included. -/
theorem c9_body_verbatim (repo milestone : String) (r : Row) :
    (rowCmd repo milestone r)[8]? = some (bodyOf r) ∧
    (r.body = none → bodyOf r = "") ∧
    ∀ s, r.body = some s → bodyOf r = s := by
  refine ⟨by simp [rowCmd], ?_, ?_⟩
  · intro h; simp [bodyOf, h]
  · intro s h; simp [bodyOf, h]

theorem c9_witness :
    bodyOf ⟨some "t", some "  padded  ", none⟩ = "  padded  " :=
  (c9_body_verbatim "o/r" "m" ⟨some "t", some "  padded  ", none⟩).2.2
    "  padded  " rfl

/-- Claim C10: with a real repository configured, a run in which every
present file's rows all have empty trimmed titles (in particular when all
five files are absent) executes no command, still reaches the final Done
event, and exits with status zero. -/
theorem c10_zero_issue_run_completes (env : Env) (h1 : env.repo ≠ placeholderRepo)
    (h2 : ∀ name rows, env.files name = some rows → ∀ r ∈ rows, titleOf r = "") :
    (mainRun env).2 = 0 ∧
    (mainRun env).1.getLast? = some Event.done ∧
    execedCmds (mainRun env).1 = [] := by
  obtain ⟨hok, he⟩ :=
    runFiles_allEmpty env.repo (dryRunOf env.argv) env.files env.exec PHASE_FILES h2
  have hm : mainRun env =
      ((runFiles env.repo (dryRunOf env.argv) env.files env.exec PHASE_FILES).1
        ++ [Event.done], 0) := by
    simp [mainRun, h1, hok]
  rw [hm]
  refine ⟨rfl, ?_, ?_⟩
  · simp
  · simp [he]

theorem c10_witness :
    (mainRun ⟨REPO, [], fun _ => none, fun _ => 0⟩).2 = 0 :=
  (c10_zero_issue_run_completes _ (by decide) (fun _ _ h => Option.noConfusion h)).1

end OntoView
